import Mathlib

/-!
Verification development for the `collector` observability telemetry
collector (Go).  The Go core runtime (component lifecycle, event bus,
config store, plugin registry, data pipeline, buffer manager, health
monitor, core controller) is shallowly embedded as pure Lean functions:
Go maps become association lists, Go `nil` pointers and `nil` slices
become `Option`, Go panics become `Option.none` results, and the blocking
of `sync.RWMutex.RLock` while the same goroutine holds the write lock is
modelled as a `none` ("never returns") result.
-/

namespace Collector

/-- The `model.ComponentStatus` (types.go): closed status enumeration. -/
inductive ComponentStatus where
  | uninitialized
  | initialized
  | running
  | stopped
  | error
  deriving DecidableEq, Repr

/-- The `model.PluginType` (types.go). -/
inductive PluginType where
  | input
  | processor
  | output
  deriving DecidableEq, Repr

/-- The `model.TelemetryType` (types.go). -/
inductive TelemetryType where
  | log
  | metric
  | trace
  deriving DecidableEq, Repr

/-- The `model.EventType` (types.go). -/
inductive EventType where
  | componentStatusChange
  | configChange
  | dataReceived
  | dataProcessed
  | dataSent
  | errorEvent
  deriving DecidableEq, Repr

/-- A JSON-like dynamic value, standing in for Go `interface{}` as it is
used by the configuration store and batch/point attributes. -/
inductive JVal where
  | obj (entries : List (String × JVal))
  | arr (elems : List JVal)
  | str (s : String)
  | num (n : Int)
  | boolean (b : Bool)
  | null

/-- Lookup in a Go map modelled as an association list
(first binding wins; well-formed states have unique keys). -/
def assocFind (k : String) : List (String × α) → Option α
  | [] => none
  | (k', v) :: rest => if k' = k then some v else assocFind k rest

/-- Go map assignment `m[k] = v`: replace the binding in place if the key is
present, otherwise append a new binding. -/
def assocSet (k : String) (v : α) : List (String × α) → List (String × α)
  | [] => [(k, v)]
  | (k', v') :: rest => if k' = k then (k, v) :: rest else (k', v') :: assocSet k v rest

/-- Go map `delete(m, k)`. -/
def assocErase (k : String) : List (String × α) → List (String × α)
  | [] => []
  | (k', v') :: rest => if k' = k then rest else (k', v') :: assocErase k rest

@[simp] theorem assocFind_nil (k : String) : assocFind k ([] : List (String × α)) = none := rfl

@[simp] theorem assocFind_assocSet_self (k : String) (v : α) (l : List (String × α)) :
    assocFind k (assocSet k v l) = some v := by
  induction l with
  | nil => simp [assocFind, assocSet]
  | cons hd tl ih =>
    obtain ⟨k', v'⟩ := hd
    by_cases h : k' = k <;> simp [assocFind, assocSet, h, ih]

theorem assocFind_assocSet_ne (k k' : String) (v : α) (l : List (String × α))
    (h : k' ≠ k) : assocFind k' (assocSet k v l) = assocFind k' l := by
  induction l with
  | nil => simp [assocFind, assocSet, Ne.symm h]
  | cons hd tl ih =>
    obtain ⟨k0, v0⟩ := hd
    by_cases h0 : k0 = k
    · subst h0
      simp [assocFind, assocSet, Ne.symm h]
    · simp only [assocSet, if_neg h0]
      by_cases h1 : k0 = k'
      · simp [assocFind, h1]
      · simp [assocFind, h1, ih]

/-- The `model.Record` (record.go): a raw pre-structuring datum. -/
structure Record where
  source : String
  timestamp : Nat
  rawData : List Nat
  attributes : List (String × JVal)

/-- The `model.DataPoint` (data.go): a closed tagged variant of
log / metric / trace points.  Timestamps are modelled as `Nat` ticks and
`float64` metric values as `Int` (no claim computes with them). -/
inductive DataPoint where
  | log (timestamp : Nat) (origin : String) (labels : List (String × String))
      (message : String) (level : String) (attributes : List (String × JVal))
  | metric (timestamp : Nat) (origin : String) (labels : List (String × String))
      (name : String) (value : Int) (metricType : String)
      (dimensions : List (String × String))
  | trace (timestamp : Nat) (origin : String) (labels : List (String × String))
      (traceId : String) (spanId : String) (parentSpanId : String)
      (startTime : Nat) (endTime : Nat)

/-- The `model.DataBatch` (data.go). -/
structure DataBatch where
  sourceID : String
  batchType : TelemetryType
  points : List DataPoint
  records : List Record
  timestamp : Nat
  attributes : List (String × JVal)

/-- The `DataBatch.Size` (data.go): the number of typed points. -/
def DataBatch.size (b : DataBatch) : Nat := b.points.length

/-- The `model.NewDataBatch` (data.go); the `time.Now()` stamp is a parameter-free
zero tick in this model. -/
def newDataBatch (t : TelemetryType) : DataBatch :=
  { sourceID := ""
    batchType := t
    points := []
    records := []
    timestamp := 0
    attributes := [] }

/-! ## Event bus (event bus source file, package core)

Callbacks are Go function values; the model carries them abstractly as
values of a type parameter `κ` and records an invocation log instead of
running them. -/

/-- The `core.Event`. -/
structure Event where
  etype : EventType
  sourceID : String
  data : JVal
  timestamp : Nat

/-- The `core.EventBus`: map from event type to a map from listener id to
callback, plus the `BaseComponent` status. -/
structure EventBus (κ : Type) where
  subscribers : List (EventType × List (String × κ))
  compStatus : ComponentStatus

/-- Association-list lookup keyed by `EventType` (a Go map). -/
def assocFindT (k : EventType) : List (EventType × α) → Option α
  | [] => none
  | (k', v) :: rest => if k' = k then some v else assocFindT k rest

/-- Go map assignment keyed by `EventType`. -/
def assocSetT (k : EventType) (v : α) : List (EventType × α) → List (EventType × α)
  | [] => [(k, v)]
  | (k', v') :: rest => if k' = k then (k, v) :: rest else (k', v') :: assocSetT k v rest

/-- The `NewEventBus`. -/
def newEventBus (κ : Type) : EventBus κ :=
  { subscribers := [], compStatus := .uninitialized }

/-- The `EventBus.Initialize`. -/
def EventBus.initComp (b : EventBus κ) : EventBus κ :=
  { b with compStatus := .initialized }

/-- The `EventBus.Start`. -/
def EventBus.startComp (b : EventBus κ) : EventBus κ :=
  { b with compStatus := .running }

/-- The `EventBus.Stop`: clears all subscribers. -/
def EventBus.stopComp (b : EventBus κ) : EventBus κ :=
  { b with subscribers := [], compStatus := .stopped }

/-- The `EventBus.Subscribe`: `subscribers[eventType][listenerID] = callback`,
creating the inner map when absent. -/
def EventBus.subscribe (b : EventBus κ) (t : EventType) (listenerID : String)
    (callback : κ) : EventBus κ :=
  let inner := (assocFindT t b.subscribers).getD []
  { b with subscribers := assocSetT t (assocSet listenerID callback inner) b.subscribers }

/-- The `EventBus.Unsubscribe`: delete the pair when the inner map exists. -/
def EventBus.unsubscribe (b : EventBus κ) (t : EventType) (listenerID : String) :
    EventBus κ :=
  match assocFindT t b.subscribers with
  | none => b
  | some inner => { b with subscribers := assocSetT t (assocErase listenerID inner) b.subscribers }

/-- The `EventBus.Publish`: when not `RUNNING` nothing is invoked; otherwise a
snapshot of the subscriber map for the event's type is taken and each
callback is invoked once.  The result is the invocation log: the
`(listenerId, callback)` pairs invoked, in map order. -/
def EventBus.publish (b : EventBus κ) (e : Event) : List (String × κ) :=
  if b.compStatus ≠ .running then []
  else (assocFindT e.etype b.subscribers).getD []

/-! ## Plugin registry and data pipeline (pipeline source file, registry
source file, package core) -/

/-- The `model.ProcessorPlugin`'s processing capability: `Process` returns a
new batch or Go `nil` (here `none`). -/
structure ProcessorPlugin where
  pid : String
  process : DataBatch → Option DataBatch

/-- A registered `model.Plugin` interface value: identity, declared type,
status, the results of `Validate`/`RegisterWithCore`/`Initialize`, and the
`Process` implementation when the dynamic type is a processor (the Go type
assertion `plugin.(model.ProcessorPlugin)` succeeds exactly when
`processFn` is `some`). -/
structure RegPlugin where
  pid : String
  pname : String
  ptype : PluginType
  pstatus : ComponentStatus
  validateOk : Bool
  registerOk : Bool
  initOk : Bool
  processFn : Option (DataBatch → Option DataBatch)

/-- The `core.PluginRegistry`. -/
structure PluginRegistry where
  plugins : List (String × RegPlugin)
  compStatus : ComponentStatus

/-- The `NewPluginRegistry`. -/
def newPluginRegistry : PluginRegistry :=
  { plugins := [], compStatus := .uninitialized }

/-- The `PluginRegistry.GetPlugin`. -/
def PluginRegistry.getPlugin (r : PluginRegistry) (pluginID : String) : Option RegPlugin :=
  assocFind pluginID r.plugins

/-- The `PluginRegistry.RegisterPlugin`: fails on a duplicate id. -/
def PluginRegistry.registerPlugin (r : PluginRegistry) (p : RegPlugin) :
    PluginRegistry × Bool :=
  match assocFind p.pid r.plugins with
  | some _ => (r, false)
  | none => ({ r with plugins := r.plugins ++ [(p.pid, p)] }, true)

/-- The `PluginRegistry.Stop`: stops every registered plugin, then itself. -/
def PluginRegistry.stopComp (r : PluginRegistry) : PluginRegistry :=
  { r with
    plugins := r.plugins.map (fun kp => (kp.1, { kp.2 with pstatus := .stopped }))
    compStatus := .stopped }

/-- The `core.PipelineStage`: a processor reference plus an optional next
stage (an intrusive singly linked chain). -/
inductive PipelineStage where
  | mk (processor : ProcessorPlugin) (nextStage : Option PipelineStage)

/-- The `PipelineStage.Process` for a non-nil receiver and non-nil batch: run
the processor; a `nil` or zero-point result stops the chain with Go `nil`;
otherwise the result flows into the next stage. -/
def PipelineStage.processGo : PipelineStage → DataBatch → Option DataBatch
  | .mk processor nextStage, batch =>
    match processor.process batch with
    | none => none
    | some processed =>
      if processed.size = 0 then none
      else
        match nextStage with
        | some n => n.processGo processed
        | none => some processed

/-- The `PipelineStage.Process` including the `s == nil || batch == nil`
guard of the Go method. -/
def stageProcess (s : Option PipelineStage) (batch : Option DataBatch) :
    Option DataBatch :=
  match s, batch with
  | none, b => b
  | some _, none => none
  | some st, some b => st.processGo b

/-- The `core.DataPipeline`: map from telemetry type to the head stage
(missing key and nil head are treated identically by `Process`, so both
are `none`), plus component status.  The Go struct's `registry` pointer is
passed explicitly to `createPipeline`. -/
structure DataPipeline where
  pipelines : TelemetryType → Option PipelineStage
  compStatus : ComponentStatus

/-- The `NewDataPipeline`. -/
def newDataPipeline : DataPipeline :=
  { pipelines := fun _ => none, compStatus := .uninitialized }

/-- The `DataPipeline.Stop`: drops all chains. -/
def DataPipeline.stopComp (_p : DataPipeline) : DataPipeline :=
  { pipelines := fun _ => none, compStatus := .stopped }

/-- The stage-construction loop of `DataPipeline.CreatePipeline`: resolve
each id in order via the registry, fail on a missing id or a non-processor
plugin, and link the stages in the given order. -/
def buildChain (r : PluginRegistry) : List String → Except String (Option PipelineStage)
  | [] => .ok none
  | processorID :: rest =>
    match r.getPlugin processorID with
    | none => .error ("processor plugin not found: " ++ processorID)
    | some pl =>
      match pl.processFn with
      | none => .error ("plugin is not a processor: " ++ processorID)
      | some fn =>
        match buildChain r rest with
        | .error e => .error e
        | .ok tail => .ok (some (.mk ⟨pl.pid, fn⟩ tail))

/-- The `DataPipeline.CreatePipeline`: an empty id list is an error; otherwise
the built chain replaces any existing chain for the telemetry type.  On
error the pipeline map is untouched (the Go method returns before the
`p.pipelines[telemetryType] = firstStage` write). -/
def createPipeline (r : PluginRegistry) (p : DataPipeline) (telemetryType : TelemetryType)
    (processorIDs : List String) : Except String DataPipeline :=
  if processorIDs.isEmpty then .error "no processors specified for pipeline"
  else
    match buildChain r processorIDs with
    | .error e => .error e
    | .ok chain =>
      .ok { p with pipelines := fun t => if t = telemetryType then chain else p.pipelines t }

/-- The `DataPipeline.Process`: nil or empty batches yield nil; a non-running
pipeline yields nil; with no chain for the batch's type the batch passes
through unchanged; otherwise the chain runs. -/
def dataPipelineProcess (p : DataPipeline) (batch : Option DataBatch) : Option DataBatch :=
  match batch with
  | none => none
  | some b =>
    if b.size = 0 then none
    else if p.compStatus ≠ .running then none
    else
      match p.pipelines b.batchType with
      | none => some b
      | some chain => chain.processGo b

/-! ## Config store (config.go, package core)

Watcher callbacks are carried as `Nat` tokens; a notification is the pair
of the token and the value handed to the callback. -/

/-- The `core.ConfigManager` (config.go variant). -/
structure ConfigManager where
  config : List (String × JVal)
  watchers : List (String × List Nat)
  configFile : String
  compStatus : ComponentStatus

/-- The `NewConfigManager`. -/
def newConfigManager : ConfigManager :=
  { config := [], watchers := [], configFile := "", compStatus := .uninitialized }

/-- Go's `strings.Split(path, ".")`: splits at every dot character; the
empty string yields `[""]`. -/
def splitDots : List Char → List (List Char)
  | [] => [[]]
  | c :: rest =>
    if c = '.' then [] :: splitDots rest
    else
      match splitDots rest with
      | [] => [[c]]
      | g :: gs => (c :: g) :: gs

/-- The `strings.Split(path, ".")` on a `String`. -/
def splitPath (s : String) : List String := (splitDots s.data).map String.mk

/-- The traversal loop of `ConfigManager.GetConfig` over already-split
path parts: a missing key or a non-map value blocking traversal yields the
default; the last part yields the stored value. -/
def navigateConfig : List (String × JVal) → List String → JVal → JVal
  | _, [], dflt => dflt
  | cur, part :: rest, dflt =>
    match assocFind part cur with
    | none => dflt
    | some v =>
      match rest with
      | [] => v
      | _ :: _ =>
        match v with
        | .obj m' => navigateConfig m' rest dflt
        | _ => dflt

/-- The `ConfigManager.GetConfig` on a given config tree: the empty path
returns the whole tree, otherwise the path is split on dots and walked. -/
def getConfig (cfg : List (String × JVal)) (path : String) (dflt : JVal) : JVal :=
  if path = "" then .obj cfg
  else navigateConfig cfg (splitPath path) dflt

/-- The mutation loop of `ConfigManager.SetConfig` over already-split
parts: intermediate maps are created, an existing non-map value on the
path is replaced by a fresh map, and the value lands at the last part. -/
def setConfigPath : List (String × JVal) → List String → JVal → List (String × JVal)
  | cur, [], _ => cur
  | cur, part :: rest, value =>
    match rest with
    | [] => assocSet part value cur
    | _ :: _ =>
      match assocFind part cur with
      | some (.obj m') => assocSet part (.obj (setConfigPath m' rest value)) cur
      | _ => assocSet part (.obj (setConfigPath [] rest value)) cur

/-- The tree effect of `ConfigManager.SetConfig`: an empty path requires a
map value and replaces the root; otherwise the split path is written. -/
def setConfigValue (cfg : List (String × JVal)) (path : String) (value : JVal) :
    Except String (List (String × JVal)) :=
  if path = "" then
    match value with
    | .obj newConfig => .ok newConfig
    | _ => .error "cannot set root config to non-map value"
  else .ok (setConfigPath cfg (splitPath path) value)

/-- A call to `ConfigManager.GetConfig` made while the calling goroutine
already holds `m.mutex` for writing: `GetConfig` begins with
`m.mutex.RLock()`, and a `sync.RWMutex` read lock blocks for ever while
the write lock is held by the same goroutine, so the call never returns
(`none`). -/
def getConfigUnderLock (writeLockHeld : Bool) (cfg : List (String × JVal))
    (path : String) (dflt : JVal) : Option JVal :=
  if writeLockHeld then none else some (getConfig cfg path dflt)

/-- The subscriber notification loop at the end of `ConfigManager.SetConfig`
for a non-empty path: for `i = 0, …, len(parts)` the watchers of the
dot-joined prefix of length `i` are notified; the empty prefix is handed
the new root map directly, every other prefix value is fetched with
`m.GetConfig(subPath, nil)` while the write lock is still held.  A `none`
result means the loop deadlocks and `SetConfig` never finishes. -/
def notifyWatchers (ws : List (String × List Nat)) (newConfig : List (String × JVal))
    (parts : List String) : Option (List (Nat × JVal)) :=
  (List.range (parts.length + 1)).foldl
    (fun acc i =>
      match acc with
      | none => none
      | some acc' =>
        let subPath := String.intercalate "." (parts.take i)
        match assocFind subPath ws with
        | none => some acc'
        | some cbs =>
          if i = 0 then some (acc' ++ cbs.map (fun cb => (cb, JVal.obj newConfig)))
          else
            match getConfigUnderLock true newConfig subPath .null with
            | none => none
            | some v => some (acc' ++ cbs.map (fun cb => (cb, v))))
    (some [])

/-- The `ConfigManager.SetConfig` (config.go) including its notification
phase: `some (.error _)` is a rejected root update, `some (.ok _)` is a
completed call with the new state and the notification log, and `none` is
a call that never returns because the notification loop deadlocks. -/
def setConfigWithWatchers (m : ConfigManager) (path : String) (value : JVal) :
    Option (Except String (ConfigManager × List (Nat × JVal))) :=
  if path = "" then
    match value with
    | .obj newConfig =>
      let cbs := (assocFind "" m.watchers).getD []
      some (.ok ({ m with config := newConfig },
        cbs.map (fun cb => (cb, JVal.obj newConfig))))
    | _ => some (.error "cannot set root config to non-map value")
  else
    let parts := splitPath path
    let newConfig := setConfigPath m.config parts value
    match notifyWatchers m.watchers newConfig parts with
    | none => none
    | some log => some (.ok ({ m with config := newConfig }, log))

/-- The `ConfigManager.WatchConfig` (config.go): the callback is appended
under the write lock, then the argument of
`go callback(m.GetConfig(path, nil))` is evaluated on the registering
goroutine while the write lock is still held, so the call never returns
(`none`). -/
def watchConfig (m : ConfigManager) (path : String) (cb : Nat) :
    Option (ConfigManager × List (Nat × JVal)) :=
  let m' := { m with
    watchers := assocSet path ((assocFind path m.watchers).getD [] ++ [cb]) m.watchers }
  match getConfigUnderLock true m'.config path .null with
  | none => none
  | some v => some (m', [(cb, v)])

/-- The `ConfigManager.Stop`: clears all watchers. -/
def ConfigManager.stopComp (m : ConfigManager) : ConfigManager :=
  { m with watchers := [], compStatus := .stopped }

/-! ## Buffer manager (buffer manager source file, package core) -/

/-- The `model.BufferStatus` (types.go); `LastUpdate` is a `Nat` tick. -/
structure BufferStatus where
  bufferID : String
  queueSize : Int
  totalItems : Int
  isFull : Bool
  lastUpdate : Nat
  deriving DecidableEq, Repr

/-- The zero `model.BufferStatus`, as produced by indexing the Go status
map at a missing key. -/
def zeroBufferStatus : BufferStatus :=
  { bufferID := "", queueSize := 0, totalItems := 0, isFull := false, lastUpdate := 0 }

/-- The `core.BufferManager`. -/
structure BufferManager where
  buffers : List (String × List DataBatch)
  maxQueueSize : Int
  statuses : List (String × BufferStatus)
  compStatus : ComponentStatus

/-- The `NewBufferManager`: a non-positive size falls back to the default 1000. -/
def newBufferManager (maxQueueSize : Int) : BufferManager :=
  { buffers := []
    maxQueueSize := if maxQueueSize ≤ 0 then 1000 else maxQueueSize
    statuses := []
    compStatus := .uninitialized }

/-- The `BufferManager.Initialize`. -/
def BufferManager.initComp (b : BufferManager) : BufferManager :=
  { b with compStatus := .initialized }

/-- The `BufferManager.Start`. -/
def BufferManager.startComp (b : BufferManager) : BufferManager :=
  { b with compStatus := .running }

/-- The `BufferManager.Stop`: clears all queues and statuses. -/
def BufferManager.stopComp (b : BufferManager) : BufferManager :=
  { b with buffers := [], statuses := [], compStatus := .stopped }

/-- The `BufferManager.Buffer`: nil or empty batches are accepted as no-ops;
a non-running manager rejects; the queue and its status are lazily
created; a full queue (`len >= maxQueueSize`) marks `IsFull` and rejects;
otherwise the batch is appended and the status snapshot updated. -/
def bufferAdd (b : BufferManager) (outputID : String) (batch : Option DataBatch)
    (now : Nat) : BufferManager × Bool :=
  match batch with
  | none => (b, true)
  | some bt =>
    if bt.size = 0 then (b, true)
    else if b.compStatus ≠ .running then (b, false)
    else
      let b :=
        if (assocFind outputID b.buffers).isNone then
          { b with
            buffers := assocSet outputID [] b.buffers
            statuses := assocSet outputID
              { bufferID := outputID, queueSize := 0, totalItems := 0,
                isFull := false, lastUpdate := now } b.statuses }
        else b
      let q := (assocFind outputID b.buffers).getD []
      if b.maxQueueSize ≤ (q.length : Int) then
        let st := (assocFind outputID b.statuses).getD zeroBufferStatus
        ({ b with
           statuses := assocSet outputID
             { st with isFull := true, lastUpdate := now } b.statuses }, false)
      else
        let q' := q ++ [bt]
        let st := (assocFind outputID b.statuses).getD zeroBufferStatus
        ({ b with
           buffers := assocSet outputID q' b.buffers
           statuses := assocSet outputID
             { st with
               queueSize := (q'.length : Int)
               totalItems := st.totalItems + (bt.size : Int)
               isFull := decide (b.maxQueueSize ≤ (q'.length : Int))
               lastUpdate := now } b.statuses }, true)

/-- The `BufferManager.Flush`: nothing for a non-running manager or an output
with no queue; `maxBatches ≤ 0` takes the whole queue, otherwise up to
`maxBatches` from the front; an empty take yields Go `nil`; a successful
take dequeues in FIFO order and rewrites the status with `IsFull = false`. -/
def bufferFlush (b : BufferManager) (outputID : String) (maxBatches : Int)
    (now : Nat) : BufferManager × Option (List DataBatch) :=
  if b.compStatus ≠ .running then (b, none)
  else
    match assocFind outputID b.buffers with
    | none => (b, none)
    | some q =>
      let numBatches := if 0 < maxBatches ∧ maxBatches < (q.length : Int)
        then maxBatches.toNat else q.length
      if numBatches = 0 then (b, none)
      else
        let result := q.take numBatches
        let rest := q.drop numBatches
        let flushedItems : Int := (result.map (fun bt => (bt.size : Int))).sum
        let st := (assocFind outputID b.statuses).getD zeroBufferStatus
        ({ b with
           buffers := assocSet outputID rest b.buffers
           statuses := assocSet outputID
             { st with
               queueSize := (rest.length : Int)
               totalItems := st.totalItems - flushedItems
               isFull := false
               lastUpdate := now } b.statuses }, some result)

/-- The `BufferManager.GetBufferStatus`: a copy of all status snapshots. -/
def getBufferStatus (b : BufferManager) : List (String × BufferStatus) := b.statuses

/-! ## Health monitor (health monitor source file, package core) -/

/-- The `core.HealthMonitor`: monitored components are recorded as
id ↦ (name, status-at-aggregation-time); in Go the monitor stores live
`Component` references and reads `GetStatus()` when aggregating. -/
structure HealthMonitor where
  components : List (String × String × ComponentStatus)
  metrics : List (String × JVal)
  compStatus : ComponentStatus

/-- The `NewHealthMonitor`. -/
def newHealthMonitor : HealthMonitor :=
  { components := [], metrics := [], compStatus := .uninitialized }

/-- The `HealthMonitor.RegisterComponent`. -/
def HealthMonitor.registerComponent (h : HealthMonitor) (id name : String)
    (st : ComponentStatus) : HealthMonitor :=
  { h with components := assocSet id (name, st) h.components }

/-- The `HealthMonitor.Stop`: clears all metrics. -/
def HealthMonitor.stopComp (h : HealthMonitor) : HealthMonitor :=
  { h with metrics := [], compStatus := .stopped }

/-- The `string` value behind a `model.ComponentStatus` constant. -/
def statusText : ComponentStatus → String
  | .uninitialized => "UNINITIALIZED"
  | .initialized => "INITIALIZED"
  | .running => "RUNNING"
  | .stopped => "STOPPED"
  | .error => "ERROR"

/-- Go's `string(i)` conversion of an integer: the UTF-8 string of the
single rune with code point `i`, not a decimal rendering. -/
def goStringOfInt (n : Nat) : String := String.singleton (Char.ofNat n)

/-- The `model.HealthStatus` as returned by `GetHealthStatus` (timestamps
dropped). -/
structure SystemHealth where
  status : ComponentStatus
  message : String
  componentHealth : List (String × ComponentStatus × String)
  details : List (String × JVal)

/-- The `HealthMonitor.GetHealthStatus`: builds per-component health, counts
statuses, and aggregates.  `systemStatus` starts at `RUNNING` and — as in
the Go source — is left unchanged in the partially-running branch. -/
def getHealthStatus (h : HealthMonitor) : SystemHealth :=
  let componentHealth := h.components.map
    (fun c => (c.1, c.2.2, c.2.1 ++ " status: " ++ statusText c.2.2))
  let n := h.components.length
  let errCount := h.components.countP (fun c => decide (c.2.2 = ComponentStatus.error))
  let stopCount := h.components.countP (fun c => decide (c.2.2 = ComponentStatus.stopped))
  let runCount := h.components.countP (fun c => decide (c.2.2 = ComponentStatus.running))
  if 0 < errCount then
    { status := .error
      message := "System has errors: " ++ goStringOfInt errCount ++ " components in ERROR state"
      componentHealth := componentHealth, details := h.metrics }
  else if 0 < stopCount ∧ stopCount = n then
    { status := .stopped, message := "System is stopped"
      componentHealth := componentHealth, details := h.metrics }
  else if runCount = 0 then
    { status := .initialized, message := "System is initializing"
      componentHealth := componentHealth, details := h.metrics }
  else if runCount < n then
    { status := .running
      message := "System is partially running: " ++ goStringOfInt runCount ++ " of "
        ++ goStringOfInt n ++ " components running"
      componentHealth := componentHealth, details := h.metrics }
  else
    { status := .running, message := "System is healthy: all components running"
      componentHealth := componentHealth, details := h.metrics }

/-! ## Core controller (core.go, package core)

The per-plugin worker goroutines spawned by `Start` are outside this
sequential model; what is modelled is every mutation the `Core` methods
make on the calling goroutine, including channel creation and closing.
A Go `close` of an already-closed channel panics, and a method call on a
nil component pointer panics: both are `none` results. -/

/-- The `core.Core`.  Channels are id ↦ closed-flag. -/
structure Core where
  eventBus : Option (EventBus Nat)
  registry : Option PluginRegistry
  pipeline : Option DataPipeline
  bufferManager : Option BufferManager
  configManager : Option ConfigManager
  healthMonitor : Option HealthMonitor
  inputChannels : List (String × Bool)
  outputChannels : List (String × Bool)
  cancelled : Bool
  compStatus : ComponentStatus

/-- The `NewCore`. -/
def newCore : Core :=
  { eventBus := none, registry := none, pipeline := none, bufferManager := none,
    configManager := none, healthMonitor := none, inputChannels := [],
    outputChannels := [], cancelled := false, compStatus := .uninitialized }

/-- The `Core.Initialize`: creates and initializes every core component in
dependency order, registers them with the health monitor, and marks the
core `INITIALIZED`.  Every step succeeds (each component's `Initialize`
only sets its status; the pipeline receives a non-nil registry). -/
def coreInit (c : Core) : Core × Bool :=
  let bus : EventBus Nat := { subscribers := [], compStatus := .initialized }
  let reg : PluginRegistry := { plugins := [], compStatus := .initialized }
  let cfg : ConfigManager := { newConfigManager with compStatus := .initialized }
  let bm : BufferManager := (newBufferManager 1000).initComp
  let pl : DataPipeline := { newDataPipeline with compStatus := .initialized }
  let hm := (((((newHealthMonitor.registerComponent "core" "Core System" c.compStatus
    |>.registerComponent "event_bus" "Event Bus" bus.compStatus)
    |>.registerComponent "plugin_registry" "Plugin Registry" reg.compStatus)
    |>.registerComponent "config_manager" "Configuration Manager" cfg.compStatus)
    |>.registerComponent "data_pipeline" "Data Pipeline" pl.compStatus)
    |>.registerComponent "buffer_manager" "Buffer Manager" bm.compStatus)
  ({ c with
     eventBus := some bus, registry := some reg, configManager := some cfg,
     healthMonitor := some { hm with compStatus := .initialized },
     bufferManager := some bm, pipeline := some pl,
     compStatus := .initialized }, true)

/-- The `Core.RegisterPlugin`: nil plugins, failed `Validate`, and failed
`RegisterWithCore` are rejected before the registry insertion; the
registry rejects a duplicate id; on success the plugin is also registered
with the health monitor.  `none` is the nil-pointer panic of a core that
was never initialized. -/
def registerPluginCore (c : Core) (p : Option RegPlugin) : Option (Core × Option String) :=
  match p with
  | none => some (c, some "cannot register nil plugin")
  | some pl =>
    if !pl.validateOk then some (c, some ("plugin validation failed: " ++ pl.pid))
    else if !pl.registerOk then
      some (c, some ("plugin failed to register with core: " ++ pl.pid))
    else
      match c.registry with
      | none => none
      | some reg =>
        match reg.registerPlugin pl with
        | (reg', false) =>
          some ({ c with registry := some reg' },
            some ("plugin registration failed: " ++ pl.pid))
        | (reg', true) =>
          match c.healthMonitor with
          | none => none
          | some hm =>
            some ({ c with
              registry := some reg',
              healthMonitor := some (hm.registerComponent pl.pid pl.pname pl.pstatus) },
              none)

/-- The channel-creating half of `startInputPlugin` / `startOutputPlugin`
applied to a list of plugins: each plugin's `Initialize` is called (its
status becomes `INITIALIZED`) and a fresh channel is created for it; a
failing `Initialize` aborts. -/
def startPlugChans (reg : PluginRegistry) (plugs : List RegPlugin)
    (chans : List (String × Bool)) : PluginRegistry × List (String × Bool) × Bool :=
  match plugs with
  | [] => (reg, chans, true)
  | p :: rest =>
    if p.initOk then
      startPlugChans
        { reg with plugins := assocSet p.pid { p with pstatus := .initialized } reg.plugins }
        rest (assocSet p.pid false chans)
    else (reg, chans, false)

/-- The `Core.Start`: starts every core component, then initializes each
registered input plugin and creates its batch channel, then the same for
output plugins; the worker goroutines themselves are not part of this
sequential model.  `none` is the nil-pointer panic of an uninitialized
core. -/
def startCore (c : Core) : Option (Core × Bool) :=
  match c.eventBus, c.registry, c.configManager, c.healthMonitor, c.bufferManager, c.pipeline with
  | some bus, some reg, some cfg, some hm, some bm, some pl =>
    let bus := bus.startComp
    let reg := { reg with compStatus := ComponentStatus.running }
    let cfg := { cfg with compStatus := ComponentStatus.running }
    let hm := { hm with compStatus := ComponentStatus.running }
    let bm := bm.startComp
    let pl := { pl with compStatus := ComponentStatus.running }
    let inputs := (reg.plugins.filter
      (fun kp => decide (kp.2.ptype = PluginType.input))).map Prod.snd
    let outputs := (reg.plugins.filter
      (fun kp => decide (kp.2.ptype = PluginType.output))).map Prod.snd
    match startPlugChans reg inputs c.inputChannels with
    | (reg, inChans, false) =>
      some ({ c with
              eventBus := some bus, registry := some reg, configManager := some cfg,
              healthMonitor := some hm, bufferManager := some bm, pipeline := some pl,
              inputChannels := inChans }, false)
    | (reg, inChans, true) =>
      match startPlugChans reg outputs c.outputChannels with
      | (reg, outChans, false) =>
        some ({ c with
                eventBus := some bus, registry := some reg, configManager := some cfg,
                healthMonitor := some hm, bufferManager := some bm, pipeline := some pl,
                inputChannels := inChans, outputChannels := outChans }, false)
      | (reg, outChans, true) =>
        some ({ c with
                eventBus := some bus, registry := some reg, configManager := some cfg,
                healthMonitor := some hm, bufferManager := some bm, pipeline := some pl,
                inputChannels := inChans, outputChannels := outChans,
                compStatus := ComponentStatus.running }, true)
  | _, _, _, _, _, _ => none

/-- The `close` over every channel of a map: Go panics (`none`) when a channel
is already closed. -/
def closeAllChans : List (String × Bool) → Option (List (String × Bool))
  | [] => some []
  | (id, closed) :: rest =>
    if closed then none
    else (closeAllChans rest).map (fun r => (id, true) :: r)

/-- The `Core.Stop`: cancels the worker context, stops every component in
reverse construction order, then closes all input and output channels and
sets the core `STOPPED`. -/
def stopCore (c : Core) : Option (Core × Bool) :=
  match c.eventBus, c.registry, c.configManager, c.healthMonitor, c.bufferManager, c.pipeline with
  | some bus, some reg, some cfg, some hm, some bm, some pl =>
    let pl := pl.stopComp
    let bm := bm.stopComp
    let hm := hm.stopComp
    let cfg := cfg.stopComp
    let reg := reg.stopComp
    let bus := bus.stopComp
    match closeAllChans c.inputChannels with
    | none => none
    | some ins =>
      match closeAllChans c.outputChannels with
      | none => none
      | some outs =>
        some ({ c with
          cancelled := true,
          eventBus := some bus, registry := some reg, configManager := some cfg,
          healthMonitor := some hm, bufferManager := some bm, pipeline := some pl,
          inputChannels := ins, outputChannels := outs,
          compStatus := ComponentStatus.stopped }, true)
  | _, _, _, _, _, _ => none

/-- The `Core.PublishEvent`: a safe no-op when the event bus is absent;
otherwise one event of the given type is constructed and handed to
`EventBus.Publish`.  The model returns the published events as
`(type, sourceId)` pairs. -/
def publishEventCore (c : Core) (etype : EventType) (sourceID : String) :
    List (EventType × String) :=
  match c.eventBus with
  | none => []
  | some _ => [(etype, sourceID)]

/-- The `Core.ProcessBatch`: a nil batch, a zero-point batch, or a nil
pipeline returns the argument unchanged with nothing published; otherwise
`DATA_RECEIVED` is published, the pipeline runs, and a non-nil non-empty
result additionally publishes `DATA_PROCESSED`.  The core itself is never
mutated by this method. -/
def processBatchCore (c : Core) (batch : Option DataBatch) :
    Core × Option DataBatch × List (EventType × String) :=
  match batch with
  | none => (c, batch, [])
  | some b =>
    if b.size = 0 then (c, batch, [])
    else
      match c.pipeline with
      | none => (c, batch, [])
      | some pl =>
        let ev1 := publishEventCore c .dataReceived "core"
        let processed := dataPipelineProcess pl (some b)
        let ev2 :=
          match processed with
          | some pb => if 0 < pb.size then publishEventCore c .dataProcessed "core" else []
          | none => []
        (c, processed, ev1 ++ ev2)

/-! ## Concrete fixtures used by the claim theorems -/

/-- A one-point LOG batch. -/
def onePointLogBatch : DataBatch :=
  { sourceID := "test"
    batchType := .log
    points := [.log 0 "test" [] "hello" "INFO" []]
    records := []
    timestamp := 0
    attributes := [] }

/-- The filter processor of the repository's pipeline tests: returns a
fresh empty batch of the input batch's type. -/
def filterProcessor : ProcessorPlugin :=
  { pid := "filter", process := fun b => some (newDataBatch b.batchType) }

/-- A RUNNING pipeline with the single-stage chain `[filter]` installed
for LOG. -/
def filterPipeline : DataPipeline :=
  { pipelines := fun t => if t = .log then some (.mk filterProcessor none) else none
    compStatus := .running }

/-- C1: the spec (and the repository's own pipeline tests) say that when a
stage's processor returns nil or an empty batch, `DataPipeline.Process`
returns an empty batch of the input's telemetry type.  The code instead
returns Go `nil`: at the failing input — a RUNNING pipeline whose LOG
chain's only stage returns an empty batch, applied to a one-point LOG
batch — `Process` evaluates to `none`, not to a zero-point batch. -/
theorem pipeline_empty_stage_returns_go_nil :
    dataPipelineProcess filterPipeline (some onePointLogBatch) = none := rfl

/-- The health-monitor state of the repository's health tests: one RUNNING
component and one INITIALIZED component, no ERROR components. -/
def partialHealthMonitor : HealthMonitor :=
  { components := [("comp1", "Component 1", .running), ("comp2", "Component 2", .initialized)]
    metrics := []
    compStatus := .running }

/-- C3: with no ERROR components, at least one RUNNING and at least one
non-RUNNING component, the claim (and the repository's own
`TestGetHealthStatus`) say `GetHealthStatus` reports `INITIALIZED`.  The
code's partially-running branch only sets the message and leaves
`systemStatus` at its initial `RUNNING` value, so the returned status is
`RUNNING`, not `INITIALIZED`. -/
theorem health_partial_running_keeps_running_status :
    (getHealthStatus partialHealthMonitor).status = ComponentStatus.running ∧
    (getHealthStatus partialHealthMonitor).status ≠ ComponentStatus.initialized := by
  exact ⟨rfl, by intro h; exact ComponentStatus.noConfusion h⟩

/-- A RUNNING config manager with one watcher registered on `"system"`. -/
def watchedConfigManager : ConfigManager :=
  { config := [], watchers := [("system", [1])], configFile := "", compStatus := .running }

/-- C9: the claim says every watcher on a prefix of the path is notified
with the post-change value.  In the code, `SetConfig("system.id", "X")`
holds the write lock and, on reaching the non-empty prefix `"system"`
(which has a watcher), calls `m.GetConfig` — whose `RLock` blocks for ever
because `sync.RWMutex` is not reentrant.  The call never returns and the
watcher is never notified. -/
theorem setConfig_prefix_watcher_deadlocks :
    setConfigWithWatchers watchedConfigManager "system.id" (JVal.str "X") = none := rfl

/-- The `ConfigManager.WatchConfig` itself evaluates
`go callback(m.GetConfig(path, nil))`'s argument on the registering
goroutine while holding the write lock, so watcher registration also never
returns. -/
theorem watchConfig_never_returns (m : ConfigManager) (path : String) (cb : Nat) :
    watchConfig m path cb = none := rfl

/-- C5 counterexample: the claim says a `SetConfig` on a strict descendant
path does not change what `GetConfig(P, default)` returns.  After
`SetConfig("a", 5)`, the descendant write `SetConfig("a.b", 7)` replaces
the non-map value at `"a"` with a fresh map, so `GetConfig("a", null)`
returns that map instead of `5`. -/
theorem setConfig_descendant_changes_ancestor :
    setConfigValue [] "a" (JVal.num 5) = .ok [("a", JVal.num 5)] ∧
    setConfigValue [("a", JVal.num 5)] "a.b" (JVal.num 7)
      = .ok [("a", JVal.obj [("b", JVal.num 7)])] ∧
    getConfig [("a", JVal.obj [("b", JVal.num 7)])] "a" JVal.null ≠ JVal.num 5 := by
  refine ⟨rfl, rfl, ?_⟩
  intro h
  exact JVal.noConfusion h

/-- A valid input plugin. -/
def inputPluginFix : RegPlugin :=
  { pid := "in1", pname := "Input 1", ptype := .input, pstatus := .uninitialized
    validateOk := true, registerOk := true, initOk := true, processFn := none }

/-- A valid output plugin. -/
def outputPluginFix : RegPlugin :=
  { pid := "out1", pname := "Output 1", ptype := .output, pstatus := .uninitialized
    validateOk := true, registerOk := true, initOk := true, processFn := none }

/-- The core after `Initialize` and successful registration of one input
and one output plugin. -/
def coreAfterRegistration : Core :=
  match registerPluginCore (coreInit newCore).1 (some inputPluginFix) with
  | some (c, _) =>
    match registerPluginCore c (some outputPluginFix) with
    | some (c', _) => c'
    | none => newCore
  | none => newCore

/-- The core after a successful `Start` (one input channel and one output
channel exist). -/
def coreAfterStart : Core :=
  match startCore coreAfterRegistration with
  | some (c, _) => c
  | none => newCore

/-- Sanity: `Start` on the registered core succeeds. -/
theorem coreAfterStart_start_ok :
    (startCore coreAfterRegistration).map Prod.snd = some true := rfl

/-- C2: the claim (and the spec's idempotence law) says a second
`Core.Stop` returns `true` and leaves every component `STOPPED`.  The
first `Stop` closes the per-plugin channels; the second `Stop` reaches
`close` on the already-closed channels and panics (`none`), because
`Core.Stop` neither clears the channel maps nor guards re-entry. -/
theorem core_second_stop_panics :
    (stopCore coreAfterStart).map Prod.snd = some true ∧
    (match stopCore coreAfterStart with
     | some (c, _) => stopCore c
     | none => some (newCore, true)) = none := ⟨rfl, rfl⟩

/-- C10: for a nil batch, a zero-point batch, or a core whose pipeline
component is nil, `Core.ProcessBatch` returns its argument unchanged,
publishes no events, and leaves the core unmodified. -/
theorem processBatch_early_return (c : Core) (batch : Option DataBatch)
    (h : batch = none ∨ (∃ b, batch = some b ∧ b.size = 0) ∨ c.pipeline = none) :
    processBatchCore c batch = (c, batch, []) := by
  rcases h with h | ⟨b, hb, hsz⟩ | h
  · subst h; rfl
  · subst hb
    simp [processBatchCore, hsz]
  · cases batch with
    | none => rfl
    | some b =>
      by_cases hsz : b.size = 0
      · simp [processBatchCore, hsz]
      · simp [processBatchCore, hsz, h]

/-- Witness for C10 at a concrete input: an uninitialized core (nil
pipeline) and a non-empty batch. -/
theorem processBatch_early_return_witness :
    processBatchCore newCore (some onePointLogBatch) = (newCore, some onePointLogBatch, []) :=
  processBatch_early_return newCore (some onePointLogBatch) (Or.inr (Or.inr rfl))

/-- The stage-construction loop fails whenever some listed id is missing
from the registry or resolves to a non-processor plugin. -/
theorem buildChain_error (r : PluginRegistry) (ids : List String)
    (h : ∃ id ∈ ids, r.getPlugin id = none ∨
      ∃ pl, r.getPlugin id = some pl ∧ pl.processFn = none) :
    ∃ msg, buildChain r ids = .error msg := by
  induction ids with
  | nil =>
    rcases h with ⟨id, hmem, _⟩
    cases hmem
  | cons hd tl ih =>
    rcases h with ⟨id, hmem, hbad⟩
    rcases List.mem_cons.mp hmem with rfl | hmem'
    · rcases hbad with hnone | ⟨pl, hpl, hfn⟩
      · exact ⟨"processor plugin not found: " ++ id, by simp [buildChain, hnone]⟩
      · exact ⟨"plugin is not a processor: " ++ id, by simp [buildChain, hpl, hfn]⟩
    · cases hh : r.getPlugin hd with
      | none => exact ⟨"processor plugin not found: " ++ hd, by simp [buildChain, hh]⟩
      | some pl =>
        cases hfn : pl.processFn with
        | none => exact ⟨"plugin is not a processor: " ++ hd, by simp [buildChain, hh, hfn]⟩
        | some fn =>
          obtain ⟨msg, hmsg⟩ := ih ⟨id, hmem', hbad⟩
          exact ⟨msg, by simp [buildChain, hh, hfn, hmsg]⟩

/-- C8: `CreatePipeline` returns an error when the id list is empty, when
a listed id is not registered, or when a resolved plugin is not a
processor; an error result carries no new pipeline value, so the pipeline
mapping is left unchanged. -/
theorem createPipeline_error_cases (r : PluginRegistry) (p : DataPipeline)
    (t : TelemetryType) (ids : List String)
    (h : ids = [] ∨ ∃ id ∈ ids, r.getPlugin id = none ∨
      ∃ pl, r.getPlugin id = some pl ∧ pl.processFn = none) :
    ∃ msg, createPipeline r p t ids = .error msg := by
  rcases h with h | hbad
  · subst h
    exact ⟨_, rfl⟩
  · have hne : ids ≠ [] := by
      rcases hbad with ⟨id, hmem, _⟩
      intro he
      subst he
      cases hmem
    obtain ⟨msg, hmsg⟩ := buildChain_error r ids hbad
    cases ids with
    | nil => cases hne rfl
    | cons hd tl => exact ⟨msg, by simp [createPipeline, hmsg]⟩

/-- A running registry holding only the (non-processor) input plugin. -/
def nonProcessorRegistry : PluginRegistry :=
  { plugins := [("in1", inputPluginFix)], compStatus := .running }

/-- Holds (`true`) exactly on an error result of `CreatePipeline`. -/
def isErrorResult : Except String DataPipeline → Bool
  | .error _ => true
  | .ok _ => false

/-- Witness for C8 at a concrete input: resolving the id of an input
plugin fails the processor type assertion. -/
theorem createPipeline_error_cases_witness :
    isErrorResult (createPipeline nonProcessorRegistry newDataPipeline .log ["in1"]) = true := by
  obtain ⟨msg, hmsg⟩ := createPipeline_error_cases nonProcessorRegistry newDataPipeline .log
    ["in1"] (Or.inr ⟨"in1", by simp, Or.inr ⟨inputPluginFix, rfl, rfl⟩⟩)
  rw [hmsg]
  rfl

/-- C7: on a RUNNING buffer manager, `Flush` of an output with no queue
or an empty queue returns Go `nil` and leaves the manager unchanged; a
non-empty queue is dequeued from the front (FIFO) — the whole queue when
`maxBatches ≤ 0`, otherwise up to `maxBatches` — and the rewritten status
snapshot for that output carries `IsFull = false`. -/
theorem bufferManager_flush_spec (b : BufferManager) (outputID : String)
    (maxBatches : Int) (now : Nat) (hrun : b.compStatus = .running) :
    (assocFind outputID b.buffers = none →
      bufferFlush b outputID maxBatches now = (b, none)) ∧
    (assocFind outputID b.buffers = some [] →
      bufferFlush b outputID maxBatches now = (b, none)) ∧
    (∀ q, assocFind outputID b.buffers = some q → q ≠ [] →
      (bufferFlush b outputID maxBatches now).2 =
        some (q.take (if 0 < maxBatches ∧ maxBatches < (q.length : Int)
          then maxBatches.toNat else q.length)) ∧
      assocFind outputID (bufferFlush b outputID maxBatches now).1.buffers =
        some (q.drop (if 0 < maxBatches ∧ maxBatches < (q.length : Int)
          then maxBatches.toNat else q.length)) ∧
      (assocFind outputID (getBufferStatus (bufferFlush b outputID maxBatches now).1)).map
        (fun st => st.isFull) = some false) := by
  refine ⟨?_, ?_, ?_⟩
  · intro hq
    simp [bufferFlush, hrun, hq]
  · intro hq
    simp [bufferFlush, hrun, hq]
    omega
  · intro q hq hne
    have hnum : (if 0 < maxBatches ∧ maxBatches < (q.length : Int)
        then maxBatches.toNat else q.length) ≠ 0 := by
      split
      · next hc =>
        have h1 : (1 : Int) ≤ maxBatches := hc.1
        omega
      · next _ =>
        simpa [List.length_eq_zero] using hne
    refine ⟨?_, ?_, ?_⟩
    · simp [bufferFlush, hrun, hq, hnum]
    · simp [bufferFlush, hrun, hq, hnum]
    · simp [bufferFlush, getBufferStatus, hrun, hq, hnum]

/-- A second one-point LOG batch, distinguishable from the first. -/
def secondLogBatch : DataBatch :=
  { sourceID := "test2"
    batchType := .log
    points := [.log 1 "test2" [] "world" "INFO" []]
    records := []
    timestamp := 1
    attributes := [] }

/-- A RUNNING buffer manager holding a two-batch queue for `"out"`. -/
def twoBatchManager : BufferManager :=
  { buffers := [("out", [onePointLogBatch, secondLogBatch])]
    maxQueueSize := 1000
    statuses := [("out",
      { bufferID := "out"
        queueSize := 2
        totalItems := 2
        isFull := false
        lastUpdate := 0 })]
    compStatus := .running }

/-- Witness for C7 at a concrete input: flushing one of two queued
batches returns the oldest batch. -/
theorem bufferManager_flush_spec_witness :
    (bufferFlush twoBatchManager "out" 1 5).2 = some [onePointLogBatch] := by
  have h := ((bufferManager_flush_spec twoBatchManager "out" 1 5 rfl).2.2
    [onePointLogBatch, secondLogBatch] rfl (by simp)).1
  rw [h]
  rfl

/-- Key membership after a Go map assignment. -/
theorem mem_keys_assocSet (a k : String) (v : α) (l : List (String × α)) :
    a ∈ (assocSet k v l).map Prod.fst ↔ a = k ∨ a ∈ l.map Prod.fst := by
  induction l with
  | nil => simp [assocSet]
  | cons hd tl ih =>
    obtain ⟨k0, v0⟩ := hd
    by_cases h0 : k0 = k
    · subst h0
      simp [assocSet]
    · simp only [assocSet, if_neg h0, List.map_cons, List.mem_cons, ih]
      tauto

/-- A Go map assignment preserves key uniqueness. -/
theorem assocSet_keys_nodup (k : String) (v : α) (l : List (String × α))
    (h : (l.map Prod.fst).Nodup) : ((assocSet k v l).map Prod.fst).Nodup := by
  induction l with
  | nil => simp [assocSet]
  | cons hd tl ih =>
    obtain ⟨k0, v0⟩ := hd
    simp only [List.map_cons, List.nodup_cons] at h
    by_cases h0 : k0 = k
    · subst h0
      simp [assocSet, List.nodup_cons, h.1, h.2]
    · simp only [assocSet, if_neg h0, List.map_cons, List.nodup_cons]
      refine ⟨?_, ih h.2⟩
      rw [mem_keys_assocSet]
      rintro (rfl | hmem)
      · exact h0 rfl
      · exact h.1 hmem

/-- The keys surviving a Go map delete form a sublist of the old keys. -/
theorem assocErase_keys_sublist (k : String) (l : List (String × α)) :
    ((assocErase k l).map Prod.fst).Sublist (l.map Prod.fst) := by
  induction l with
  | nil => simp [assocErase]
  | cons hd tl ih =>
    obtain ⟨k0, v0⟩ := hd
    by_cases h0 : k0 = k
    · simp only [assocErase, if_pos h0, List.map_cons]
      exact (List.map Prod.fst tl).sublist_cons_self k0
    · simpa [assocErase, h0] using ih.cons₂ k0

@[simp] theorem assocFindT_nil (k : EventType) :
    assocFindT k ([] : List (EventType × α)) = none := rfl

@[simp] theorem assocFindT_assocSetT_self (k : EventType) (v : α)
    (l : List (EventType × α)) : assocFindT k (assocSetT k v l) = some v := by
  induction l with
  | nil => simp [assocFindT, assocSetT]
  | cons hd tl ih =>
    obtain ⟨k0, v0⟩ := hd
    by_cases h : k0 = k <;> simp [assocFindT, assocSetT, h, ih]

theorem assocFindT_assocSetT_ne (k k' : EventType) (v : α) (l : List (EventType × α))
    (h : k' ≠ k) : assocFindT k' (assocSetT k v l) = assocFindT k' l := by
  induction l with
  | nil => simp [assocFindT, assocSetT, Ne.symm h]
  | cons hd tl ih =>
    obtain ⟨k0, v0⟩ := hd
    by_cases h0 : k0 = k
    · subst h0
      simp [assocFindT, assocSetT, Ne.symm h]
    · simp only [assocSetT, if_neg h0]
      by_cases h1 : k0 = k'
      · simp [assocFindT, h1]
      · simp [assocFindT, h1, ih]

/-- In a map with unique keys, pair membership coincides with lookup. -/
theorem mem_iff_assocFind (l : List (String × α)) (h : (l.map Prod.fst).Nodup)
    (k : String) (v : α) : (k, v) ∈ l ↔ assocFind k l = some v := by
  induction l with
  | nil => simp [assocFind]
  | cons hd tl ih =>
    obtain ⟨k0, v0⟩ := hd
    simp only [List.map_cons, List.nodup_cons] at h
    by_cases h0 : k0 = k
    · subst h0
      have hfind : assocFind k0 ((k0, v0) :: tl) = some v0 := by
        simp [assocFind]
      rw [hfind, List.mem_cons, Option.some.injEq]
      constructor
      · rintro (hh | hh)
        · exact (((Prod.mk.injEq _ _ _ _).mp hh).2).symm
        · exact absurd (List.mem_map_of_mem Prod.fst hh) h.1
      · intro hv
        subst hv
        exact Or.inl rfl
    · simp only [assocFind, if_neg h0, List.mem_cons]
      rw [← ih h.2]
      constructor
      · rintro (hh | hh)
        · cases hh
          exact absurd rfl h0
        · exact hh
      · exact Or.inr

/-- One `EventBus` API call. -/
inductive BusOp (κ : Type) where
  | initOp
  | startOp
  | stopOp
  | subscribeOp (t : EventType) (listenerID : String) (callback : κ)
  | unsubscribeOp (t : EventType) (listenerID : String)

/-- Apply one API call to the bus. -/
def applyBusOp (b : EventBus κ) : BusOp κ → EventBus κ
  | .initOp => b.initComp
  | .startOp => b.startComp
  | .stopOp => b.stopComp
  | .subscribeOp t lid cb => b.subscribe t lid cb
  | .unsubscribeOp t lid => b.unsubscribe t lid

/-- Apply a sequence of API calls to the bus. -/
def applyBusOps (b : EventBus κ) (ops : List (BusOp κ)) : EventBus κ :=
  ops.foldl applyBusOp b

/-- Every per-type listener map has unique listener ids. -/
def busKeysNodup (b : EventBus κ) : Prop :=
  ∀ t, (((assocFindT t b.subscribers).getD []).map Prod.fst).Nodup

theorem busKeysNodup_applyBusOp (b : EventBus κ) (op : BusOp κ)
    (h : busKeysNodup b) : busKeysNodup (applyBusOp b op) := by
  cases op with
  | initOp => exact h
  | startOp => exact h
  | stopOp =>
    intro t
    simp [applyBusOp, EventBus.stopComp]
  | subscribeOp t0 lid cb =>
    intro t
    by_cases ht : t = t0
    · subst ht
      simp only [applyBusOp, EventBus.subscribe, assocFindT_assocSetT_self, Option.getD_some]
      exact assocSet_keys_nodup _ _ _ (h t)
    · simp only [applyBusOp, EventBus.subscribe,
        assocFindT_assocSetT_ne t0 t _ _ ht]
      exact h t
  | unsubscribeOp t0 lid =>
    intro t
    cases hin : assocFindT t0 b.subscribers with
    | none => simpa [applyBusOp, EventBus.unsubscribe, hin] using h t
    | some inner =>
      by_cases ht : t = t0
      · subst ht
        have hn : (inner.map Prod.fst).Nodup := by
          have := h t
          rwa [hin, Option.getD_some] at this
        simp only [applyBusOp, EventBus.unsubscribe, hin, assocFindT_assocSetT_self,
          Option.getD_some]
        exact (assocErase_keys_sublist lid inner).nodup hn
      · simp only [applyBusOp, EventBus.unsubscribe, hin,
          assocFindT_assocSetT_ne t0 t _ _ ht]
        exact h t

theorem busKeysNodup_applyBusOps (ops : List (BusOp κ)) (b : EventBus κ)
    (h : busKeysNodup b) : busKeysNodup (applyBusOps b ops) := by
  induction ops generalizing b with
  | nil => exact h
  | cons op rest ih => exact ih _ (busKeysNodup_applyBusOp b op h)

/-- C6: on any bus reachable through the `EventBus` API, `Publish` invokes
no callback when the bus is not RUNNING; when it is RUNNING, the
invocation log contains exactly the listeners subscribed to the event's
type at publish time — a pair is invoked iff it is the registered
callback of that listener — and no listener is invoked twice. -/
theorem eventBus_publish_exact_delivery {κ : Type} (ops : List (BusOp κ)) (e : Event) :
    ((applyBusOps (newEventBus κ) ops).compStatus ≠ .running →
      (applyBusOps (newEventBus κ) ops).publish e = []) ∧
    ((applyBusOps (newEventBus κ) ops).compStatus = .running →
      (∀ lid cb, (lid, cb) ∈ (applyBusOps (newEventBus κ) ops).publish e ↔
        assocFind lid
          ((assocFindT e.etype (applyBusOps (newEventBus κ) ops).subscribers).getD [])
          = some cb) ∧
      (((applyBusOps (newEventBus κ) ops).publish e).map Prod.fst).Nodup) := by
  have hnodup : busKeysNodup (applyBusOps (newEventBus κ) ops) :=
    busKeysNodup_applyBusOps ops _ (by intro t; simp [newEventBus])
  constructor
  · intro hst
    simp [EventBus.publish, hst]
  · intro hst
    have hpub : (applyBusOps (newEventBus κ) ops).publish e =
        ((assocFindT e.etype (applyBusOps (newEventBus κ) ops).subscribers).getD []) := by
      simp [EventBus.publish, hst]
    constructor
    · intro lid cb
      rw [hpub]
      exact mem_iff_assocFind _ (hnodup e.etype) lid cb
    · rw [hpub]
      exact hnodup e.etype

/-- A concrete call sequence: initialize, start, one subscriber. -/
def busOpsFix : List (BusOp Nat) :=
  [.initOp, .startOp, .subscribeOp .dataReceived "l1" 7]

/-- A concrete DATA_RECEIVED event. -/
def eventFix : Event :=
  { etype := .dataReceived, sourceID := "s", data := .null, timestamp := 0 }

/-- Witness for C6 at a concrete input: the registered listener is
invoked on publish. -/
theorem eventBus_publish_exact_delivery_witness :
    ("l1", 7) ∈ (applyBusOps (newEventBus Nat) busOpsFix).publish eventFix := by
  have h := (eventBus_publish_exact_delivery busOpsFix eventFix).2 rfl
  exact (h.1 "l1" 7).mpr rfl

/-- One `BufferManager` API call (`Buffer` or `Flush`). -/
inductive BufOp where
  | addOp (outputID : String) (batch : Option DataBatch) (now : Nat)
  | flushOp (outputID : String) (maxBatches : Int) (now : Nat)

/-- Apply one API call, keeping the state. -/
def applyBufOp (b : BufferManager) : BufOp → BufferManager
  | .addOp id batch now => (bufferAdd b id batch now).1
  | .flushOp id maxB now => (bufferFlush b id maxB now).1

/-- Apply a sequence of API calls. -/
def applyBufOps (b : BufferManager) (ops : List BufOp) : BufferManager :=
  ops.foldl applyBufOp b

/-- The buffer/status synchronisation invariant: the cap is positive, and
for every output either neither a queue nor a status exists, or both exist
with the queue within the cap, the status mirroring the queue length, and
`isFull` set exactly at the cap. -/
def bmSync (b : BufferManager) : Prop :=
  0 < b.maxQueueSize ∧
  ∀ id,
    (assocFind id b.buffers = none ∧ assocFind id b.statuses = none) ∨
    (∃ q st, assocFind id b.buffers = some q ∧ assocFind id b.statuses = some st ∧
      (q.length : Int) ≤ b.maxQueueSize ∧
      st.queueSize = (q.length : Int) ∧
      (st.isFull = true ↔ (q.length : Int) = b.maxQueueSize))

/-- Writing a queue/status pair that satisfies the per-output conditions
preserves the invariant. -/
theorem bmSync_update (b : BufferManager) (id0 : String) (q : List DataBatch)
    (st : BufferStatus) (h : bmSync b)
    (hlen : (q.length : Int) ≤ b.maxQueueSize)
    (hqs : st.queueSize = (q.length : Int))
    (hfull : st.isFull = true ↔ (q.length : Int) = b.maxQueueSize) :
    bmSync { b with
             buffers := assocSet id0 q b.buffers
             statuses := assocSet id0 st b.statuses } := by
  refine ⟨h.1, fun id => ?_⟩
  by_cases hid : id = id0
  · subst hid
    exact Or.inr ⟨q, st, by simp, by simp, hlen, hqs, hfull⟩
  · dsimp only
    rw [assocFind_assocSet_ne _ _ _ _ hid, assocFind_assocSet_ne _ _ _ _ hid]
    exact h.2 id

/-- The `Buffer` preserves the invariant. -/
theorem bmSync_bufferAdd (b : BufferManager) (id0 : String) (batch : Option DataBatch)
    (now : Nat) (h : bmSync b) : bmSync (bufferAdd b id0 batch now).1 := by
  obtain ⟨hmax, hsync⟩ := h
  cases batch with
  | none => exact ⟨hmax, hsync⟩
  | some bt =>
    by_cases hsz : bt.size = 0
    · simp only [bufferAdd, hsz, if_pos rfl]
      exact ⟨hmax, hsync⟩
    · by_cases hrun : b.compStatus = .running
      · cases hbq : assocFind id0 b.buffers with
        | none =>
          -- the queue and a fresh zero status are created, then the batch
          -- is appended (a fresh empty queue cannot be at the cap)
          have hens : bmSync { b with
              buffers := assocSet id0 [] b.buffers
              statuses := assocSet id0
                { bufferID := id0, queueSize := 0, totalItems := 0,
                  isFull := false, lastUpdate := now } b.statuses } := by
            refine bmSync_update b id0 [] _ ⟨hmax, hsync⟩ (by simpa using le_of_lt hmax) rfl ?_
            simp only [List.length_nil, Nat.cast_zero]
            constructor
            · intro hc
              cases hc
            · intro hc
              omega
          have hstep : (bufferAdd b id0 (some bt) now).1 = { b with
              buffers := assocSet id0 [bt] (assocSet id0 [] b.buffers)
              statuses := assocSet id0
                { bufferID := id0, queueSize := (1 : Int), totalItems := (bt.size : Int),
                  isFull := decide (b.maxQueueSize ≤ (1 : Int)),
                  lastUpdate := now } (assocSet id0
                    { bufferID := id0, queueSize := 0, totalItems := 0,
                      isFull := false, lastUpdate := now } b.statuses) } := by
            simp [bufferAdd, hsz, hrun, hbq, hmax.not_le]
          rw [hstep]
          refine bmSync_update _ id0 [bt] _ hens (by simpa using hmax) rfl ?_
          simp only [List.length_singleton, Nat.cast_one, decide_eq_true_eq]
          omega
        | some q0 =>
          rcases hsync id0 with ⟨hb', _⟩ | ⟨q, st0, hb', hs', hlen, hqs, hfull⟩
          · rw [hbq] at hb'
            cases hb'
          · rw [hbq] at hb'
            injection hb' with hqq
            subst hqq
            by_cases hfullnow : b.maxQueueSize ≤ (q0.length : Int)
            · -- at the cap: only the status is rewritten with isFull = true
              have hqeq : (q0.length : Int) = b.maxQueueSize := le_antisymm hlen hfullnow
              have hstep : (bufferAdd b id0 (some bt) now).1 = { b with
                  statuses := assocSet id0
                    { st0 with isFull := true, lastUpdate := now } b.statuses } := by
                simp [bufferAdd, hsz, hrun, hbq, hs', hfullnow]
              rw [hstep]
              refine ⟨hmax, fun id => ?_⟩
              by_cases hid : id = id0
              · subst hid
                refine Or.inr ⟨q0, { st0 with isFull := true, lastUpdate := now },
                  hbq, by simp, hlen, hqs, ?_⟩
                simpa using hqeq
              · dsimp only
                rw [assocFind_assocSet_ne _ _ _ _ hid]
                exact hsync id
            · -- there is room: append and rewrite the status
              have hstep : (bufferAdd b id0 (some bt) now).1 = { b with
                  buffers := assocSet id0 (q0 ++ [bt]) b.buffers
                  statuses := assocSet id0
                    { st0 with
                      queueSize := ((q0 ++ [bt]).length : Int)
                      totalItems := st0.totalItems + (bt.size : Int)
                      isFull := decide (b.maxQueueSize ≤ ((q0 ++ [bt]).length : Int))
                      lastUpdate := now } b.statuses } := by
                simp [bufferAdd, hsz, hrun, hbq, hs', hfullnow]
              rw [hstep]
              refine bmSync_update _ id0 (q0 ++ [bt]) _ ⟨hmax, hsync⟩ ?_ rfl ?_
              · simp only [List.length_append, List.length_singleton, Nat.cast_add,
                  Nat.cast_one]
                omega
              · simp only [List.length_append, List.length_singleton, Nat.cast_add,
                  Nat.cast_one, decide_eq_true_eq]
                omega
      · have hstep : (bufferAdd b id0 (some bt) now).1 = b := by
          simp [bufferAdd, hsz, hrun]
        rw [hstep]
        exact ⟨hmax, hsync⟩

/-- The `Flush` preserves the invariant. -/
theorem bmSync_bufferFlush (b : BufferManager) (id0 : String) (maxB : Int)
    (now : Nat) (h : bmSync b) : bmSync (bufferFlush b id0 maxB now).1 := by
  obtain ⟨hmax, hsync⟩ := h
  by_cases hrun : b.compStatus = .running
  · cases hbq : assocFind id0 b.buffers with
    | none =>
      have hstep : (bufferFlush b id0 maxB now).1 = b := by
        simp [bufferFlush, hrun, hbq]
      rw [hstep]
      exact ⟨hmax, hsync⟩
    | some q =>
      rcases hsync id0 with ⟨hb', _⟩ | ⟨q', st0, hb', hs', hlen, hqs, hfull⟩
      · rw [hbq] at hb'
        cases hb'
      · rw [hbq] at hb'
        injection hb' with hqq
        subst hqq
        by_cases hzero : (if 0 < maxB ∧ maxB < (q.length : Int)
            then maxB.toNat else q.length) = 0
        · have hstep : (bufferFlush b id0 maxB now).1 = b := by
            simp only [bufferFlush, hrun]
            simp [hbq, hzero]
          rw [hstep]
          exact ⟨hmax, hsync⟩
        · have hle : (if 0 < maxB ∧ maxB < (q.length : Int)
              then maxB.toNat else q.length) ≤ q.length := by
            split
            · next hc =>
              omega
            · exact le_rfl
          have hql : q.length ≠ 0 := by
            intro h0
            apply hzero
            split
            · next hc =>
              omega
            · exact h0
          have hstep : (bufferFlush b id0 maxB now).1 = { b with
              buffers := assocSet id0
                (q.drop (if 0 < maxB ∧ maxB < (q.length : Int)
                  then maxB.toNat else q.length)) b.buffers
              statuses := assocSet id0
                { st0 with
                  queueSize := ((q.drop (if 0 < maxB ∧ maxB < (q.length : Int)
                    then maxB.toNat else q.length)).length : Int)
                  totalItems := st0.totalItems -
                    ((q.take (if 0 < maxB ∧ maxB < (q.length : Int)
                      then maxB.toNat else q.length)).map
                        (fun bt => (bt.size : Int))).sum
                  isFull := false
                  lastUpdate := now } b.statuses } := by
            simp only [bufferFlush, hrun]
            simp [hbq, hs', hzero]
          rw [hstep]
          refine bmSync_update _ id0 _ _ ⟨hmax, hsync⟩ ?_ rfl ?_
          · simp only [List.length_drop]
            omega
          · simp only [List.length_drop]
            constructor
            · intro hc
              cases hc
            · intro hc
              have hone : 1 ≤ (if 0 < maxB ∧ maxB < (q.length : Int)
                  then maxB.toNat else q.length) := Nat.one_le_iff_ne_zero.mpr hzero
              omega
  · have hstep : (bufferFlush b id0 maxB now).1 = b := by
      simp [bufferFlush, hrun]
    rw [hstep]
    exact ⟨hmax, hsync⟩

/-- The invariant holds along every API call sequence. -/
theorem bmSync_applyBufOps (ops : List BufOp) (b : BufferManager)
    (h : bmSync b) : bmSync (applyBufOps b ops) := by
  induction ops generalizing b with
  | nil => exact h
  | cons op rest ih =>
    cases op with
    | addOp id batch now => exact ih _ (bmSync_bufferAdd b id batch now h)
    | flushOp id maxB now => exact ih _ (bmSync_bufferFlush b id maxB now h)

/-- C4: along any sequence of `Buffer`/`Flush` calls on a started (RUNNING)
buffer manager, no output's queue ever exceeds `maxQueueSize`, and every
status snapshot's `IsFull` flag is true exactly when that output's queue
length equals `maxQueueSize`. -/
theorem bufferManager_bounded_isFull (n : Int) (ops : List BufOp) (id : String) :
    (((assocFind id (applyBufOps ((newBufferManager n).initComp.startComp) ops).buffers).getD
        []).length : Int)
      ≤ (applyBufOps ((newBufferManager n).initComp.startComp) ops).maxQueueSize ∧
    (∀ st,
      assocFind id (getBufferStatus (applyBufOps ((newBufferManager n).initComp.startComp) ops))
        = some st →
      (st.isFull = true ↔
        (((assocFind id
            (applyBufOps ((newBufferManager n).initComp.startComp) ops).buffers).getD
              []).length : Int)
          = (applyBufOps ((newBufferManager n).initComp.startComp) ops).maxQueueSize)) := by
  have hinit : bmSync ((newBufferManager n).initComp.startComp) := by
    constructor
    · show (0 : Int) < (if n ≤ 0 then 1000 else n)
      split
      · omega
      · omega
    · intro id
      exact Or.inl ⟨rfl, rfl⟩
  obtain ⟨hmax, hsync⟩ := bmSync_applyBufOps ops _ hinit
  rcases hsync id with ⟨hb, hs⟩ | ⟨q, st, hb, hs, hlen, hqs, hfull⟩
  · constructor
    · rw [hb]
      simpa using le_of_lt hmax
    · intro st hst
      rw [getBufferStatus, hs] at hst
      cases hst
  · constructor
    · rw [hb]
      simpa using hlen
    · intro st' hst'
      rw [getBufferStatus, hs] at hst'
      injection hst' with hee
      subst hee
      rw [hb]
      simpa using hfull

/-- The spec's backpressure scenario: capacity 2, three one-point batches
buffered for one output. -/
def backpressureOps : List BufOp :=
  [.addOp "out" (some onePointLogBatch) 1,
   .addOp "out" (some onePointLogBatch) 2,
   .addOp "out" (some onePointLogBatch) 3]

/-- The status snapshot reached in the backpressure scenario. -/
def backpressureStatus : BufferStatus :=
  { bufferID := "out"
    queueSize := 2
    totalItems := 2
    isFull := true
    lastUpdate := 3 }

/-- Witness for C4 at a concrete input: after three `Buffer` calls with
`maxQueueSize = 2`, the queue holds 2 batches and `IsFull` is true. -/
theorem bufferManager_bounded_isFull_witness :
    (((assocFind "out"
        (applyBufOps ((newBufferManager 2).initComp.startComp) backpressureOps).buffers).getD
          []).length : Int)
      ≤ (applyBufOps ((newBufferManager 2).initComp.startComp) backpressureOps).maxQueueSize ∧
    backpressureStatus.isFull = true := by
  have h := bufferManager_bounded_isFull 2 backpressureOps "out"
  refine ⟨h.1, ?_⟩
  have h2 := h.2 backpressureStatus rfl
  exact h2.mpr rfl

/-- Holds (`true`) when the first component list is a prefix of the second
(ancestor-or-equal on dotted config paths). -/
def isSeqStart : List String → List String → Bool
  | [], _ => true
  | _ :: _, [] => false
  | a :: as, b :: bs => decide (a = b) && isSeqStart as bs

/-- A sequence of `SetConfig` calls applied in order (an errored call
leaves the tree unchanged, as in the Go method). -/
def applyConfigSets (cfg : List (String × JVal)) (sets : List (String × JVal)) :
    List (String × JVal) :=
  sets.foldl (fun c qw =>
    match setConfigValue c qw.1 qw.2 with
    | .ok c' => c'
    | .error _ => c) cfg

/-- The `splitDots` never returns the empty list. -/
theorem splitDots_ne_nil (l : List Char) : splitDots l ≠ [] := by
  cases l with
  | nil => simp [splitDots]
  | cons c rest =>
    simp only [splitDots]
    split
    · simp
    · split <;> simp

/-- The `splitPath` never returns the empty list. -/
theorem splitPath_ne_nil (s : String) : splitPath s ≠ [] := by
  simp [splitPath, splitDots_ne_nil s.data]

/-- Reading back a freshly written path yields the written value. -/
theorem navigate_setConfigPath_self (parts : List String) (cfg : List (String × JVal))
    (v d : JVal) (h : parts ≠ []) :
    navigateConfig (setConfigPath cfg parts v) parts d = v := by
  induction parts generalizing cfg with
  | nil => cases h rfl
  | cons p rest ih =>
    cases rest with
    | nil => simp [setConfigPath, navigateConfig]
    | cons r rs =>
      cases hf : assocFind p cfg with
      | none =>
        simp only [setConfigPath, hf, navigateConfig, assocFind_assocSet_self]
        exact ih [] (by simp)
      | some w =>
        cases w <;>
          simp only [setConfigPath, hf, navigateConfig, assocFind_assocSet_self] <;>
          exact ih _ (by simp)

/-- Reading an unrelated path in a tree containing only the written path
yields the default. -/
theorem navigate_setConfigPath_nil_unrelated (pQ pP : List String) (w d : JVal)
    (h1 : isSeqStart pQ pP = false) (h2 : isSeqStart pP pQ = false) :
    navigateConfig (setConfigPath [] pQ w) pP d = d := by
  induction pQ generalizing pP with
  | nil => cases h1
  | cons q qs ih =>
    cases pP with
    | nil => cases h2
    | cons p ps =>
      by_cases hpq : p = q
      · subst hpq
        have hqs : qs ≠ [] := by
          intro he
          subst he
          simp [isSeqStart] at h1
        have hps : ps ≠ [] := by
          intro he
          subst he
          simp [isSeqStart] at h2
        have h1' : isSeqStart qs ps = false := by
          simpa [isSeqStart] using h1
        have h2' : isSeqStart ps qs = false := by
          simpa [isSeqStart] using h2
        cases qs with
        | nil => cases hqs rfl
        | cons r rs =>
          cases ps with
          | nil => cases hps rfl
          | cons t ts =>
            simp only [setConfigPath, assocFind, navigateConfig, if_pos rfl]
            exact ih (t :: ts) h1' h2'
      · cases qs with
        | nil =>
          simp [setConfigPath, navigateConfig, assocFind, Ne.symm hpq]
        | cons r rs =>
          simp [setConfigPath, navigateConfig, assocFind, Ne.symm hpq]

/-- A `SetConfig` on a path that is neither an ancestor nor a descendant
of `pP` does not change what `pP` reads. -/
theorem navigate_setConfigPath_unrelated (pQ pP : List String)
    (cfg : List (String × JVal)) (w d : JVal)
    (h1 : isSeqStart pQ pP = false) (h2 : isSeqStart pP pQ = false) :
    navigateConfig (setConfigPath cfg pQ w) pP d = navigateConfig cfg pP d := by
  induction pQ generalizing pP cfg with
  | nil => cases h1
  | cons q qs ih =>
    cases pP with
    | nil => cases h2
    | cons p ps =>
      by_cases hpq : p = q
      · subst hpq
        have hqs : qs ≠ [] := by
          intro he
          subst he
          simp [isSeqStart] at h1
        have hps : ps ≠ [] := by
          intro he
          subst he
          simp [isSeqStart] at h2
        have h1' : isSeqStart qs ps = false := by
          simpa [isSeqStart] using h1
        have h2' : isSeqStart ps qs = false := by
          simpa [isSeqStart] using h2
        cases qs with
        | nil => cases hqs rfl
        | cons r rs =>
          cases ps with
          | nil => cases hps rfl
          | cons t ts =>
            cases hf : assocFind p cfg with
            | none =>
              simp only [setConfigPath, hf, navigateConfig, assocFind_assocSet_self]
              exact navigate_setConfigPath_nil_unrelated (r :: rs) (t :: ts) w d h1' h2'
            | some v =>
              cases v with
              | obj m' =>
                simp only [setConfigPath, hf, navigateConfig, assocFind_assocSet_self]
                exact ih (t :: ts) m' h1' h2'
              | _ =>
                simp only [setConfigPath, hf, navigateConfig, assocFind_assocSet_self]
                exact navigate_setConfigPath_nil_unrelated (r :: rs) (t :: ts) w d h1' h2'
      · -- different head key: the write does not touch the head read
        have hfind : ∀ X, assocFind p (assocSet q X cfg) = assocFind p cfg :=
          fun X => assocFind_assocSet_ne q p X cfg hpq
        cases qs with
        | nil =>
          simp only [setConfigPath, navigateConfig, hfind]
        | cons r rs =>
          cases hf : assocFind q cfg with
          | none => simp only [setConfigPath, hf, navigateConfig, hfind]
          | some v =>
            cases v <;> simp only [setConfigPath, hf, navigateConfig, hfind]

/-- Unrelated `SetConfig` sequences do not change what `pP` reads. -/
theorem applyConfigSets_unrelated (sets : List (String × JVal))
    (cfg : List (String × JVal)) (pP : List String) (d : JVal)
    (hsets : ∀ qw ∈ sets, qw.1 ≠ "" ∧ isSeqStart (splitPath qw.1) pP = false ∧
      isSeqStart pP (splitPath qw.1) = false) :
    navigateConfig (applyConfigSets cfg sets) pP d = navigateConfig cfg pP d := by
  induction sets generalizing cfg with
  | nil => rfl
  | cons qw rest ih =>
    obtain ⟨hq, h1, h2⟩ := hsets qw (List.mem_cons_self _ _)
    have hstep : applyConfigSets cfg (qw :: rest) =
        applyConfigSets (setConfigPath cfg (splitPath qw.1) qw.2) rest := by
      simp [applyConfigSets, setConfigValue, hq]
    rw [hstep, ih _ (fun x hx => hsets x (List.mem_cons_of_mem _ hx)),
      navigate_setConfigPath_unrelated _ _ _ _ _ h1 h2]

/-- C5 (amended): after a successful `SetConfig(P, V)` with a non-empty
path, `GetConfig(P, default)` returns `V`, and keeps returning `V` across
subsequent `SetConfig` calls on non-empty paths that are neither
ancestors of `P`, `P` itself, nor descendants of `P`.  (A set on a strict
descendant of `P` can replace or extend the value stored at `P`, which
the original claim ruled out.) -/
theorem setConfig_get_frame (cfg : List (String × JVal)) (P : String) (V d : JVal)
    (sets : List (String × JVal)) (hP : P ≠ "")
    (hsets : ∀ qw ∈ sets, qw.1 ≠ "" ∧
      isSeqStart (splitPath qw.1) (splitPath P) = false ∧
      isSeqStart (splitPath P) (splitPath qw.1) = false) :
    ∀ cfg1, setConfigValue cfg P V = .ok cfg1 →
      getConfig (applyConfigSets cfg1 sets) P d = V := by
  intro cfg1 hset
  have hval : setConfigValue cfg P V = .ok (setConfigPath cfg (splitPath P) V) := by
    simp [setConfigValue, hP]
  rw [hval] at hset
  injection hset with hc1
  subst hc1
  rw [getConfig, if_neg hP]
  rw [applyConfigSets_unrelated sets _ (splitPath P) d hsets]
  exact navigate_setConfigPath_self (splitPath P) cfg V d (splitPath_ne_nil P)

/-- Witness for C5 at a concrete input: `set("a.b", 1)` then the
unrelated `set("a.c", 2)`; `get("a.b", null)` still returns `1`. -/
theorem setConfig_get_frame_witness :
    getConfig (applyConfigSets [("a", JVal.obj [("b", JVal.num 1)])]
      [("a.c", JVal.num 2)]) "a.b" JVal.null = JVal.num 1 := by
  have h := setConfig_get_frame [] "a.b" (JVal.num 1) JVal.null [("a.c", JVal.num 2)]
    (by decide)
    (by
      intro qw hqw
      rw [List.mem_singleton] at hqw
      subst hqw
      exact ⟨by decide, rfl, rfl⟩)
    [("a", JVal.obj [("b", JVal.num 1)])] rfl
  exact h

end Collector
